import Mathlib

/-!
# Verification of the local-time-tracker domain core

Shallow embedding of the TypeScript sources of `local-time-tracker`
(`src/utils/format.ts`, `src/store/index.ts`, `src/components/Report.ts`)
together with theorems settling the specification claims about them.

Timestamps handled by the JavaScript `Date` object are modelled as integers
of milliseconds since the Unix epoch; `Date.prototype.toISOString` is
modelled by an executable rendering of the UTC calendar date and time of
such an instant.
-/

namespace TimeTracker

/-! ## Calendar rendering (model of `Date.prototype.toISOString`)

`toISOString` renders the UTC calendar date/time of an instant.  The
date computation is the standard civil-from-days conversion; digits are
rendered explicitly so that facts about the produced characters can be
proved. -/

/-- Civil calendar date `(year, month, day)` of a day number counted from
1970-01-01 (proleptic Gregorian calendar, as used by `toISOString`). -/
def civilFromDays (z0 : Int) : Int × Int × Int :=
  let z := z0 + 719468
  let era : Int := z.fdiv 146097
  let doe : Int := z - era * 146097
  let yoe : Int := (doe - doe.fdiv 1460 + doe.fdiv 36524 - doe.fdiv 146096).fdiv 365
  let y : Int := yoe + era * 400
  let doy : Int := doe - (365 * yoe + yoe.fdiv 4 - yoe.fdiv 100)
  let mp : Int := (5 * doy + 2).fdiv 153
  let d : Int := doy - (153 * mp + 2).fdiv 5 + 1
  let m : Int := mp + (if mp < 10 then 3 else -9)
  (y + (if m ≤ 2 then 1 else 0), m, d)

/-- The decimal digit character for `n < 10`. -/
def digitChar (n : Nat) : Char := Char.ofNat (48 + n)

/-- Zero-padded two-digit decimal rendering (month, day, hour, minute,
second fields of `toISOString`, all below 100). -/
def pad2 (n : Int) : List Char :=
  [digitChar (n.natAbs / 10 % 10), digitChar (n.natAbs % 10)]

/-- Zero-padded three-digit decimal rendering (millisecond field of
`toISOString`, below 1000). -/
def pad3 (n : Int) : List Char :=
  [digitChar (n.natAbs / 100 % 10), digitChar (n.natAbs / 10 % 10),
   digitChar (n.natAbs % 10)]

/-- Zero-padded four-digit decimal rendering of the year field of
`toISOString` (the model covers the four-digit-year range of the format;
`Date` timestamps of the application all fall in it). -/
def pad4 (n : Int) : List Char :=
  [digitChar (n.natAbs / 1000 % 10), digitChar (n.natAbs / 100 % 10),
   digitChar (n.natAbs / 10 % 10), digitChar (n.natAbs % 10)]

/-- Characters of the `YYYY-MM-DD` rendering of a day number, as produced by
the date part of `toISOString`. -/
def isoDateChars (day : Int) : List Char :=
  let c := civilFromDays day
  pad4 c.1 ++ '-' :: pad2 c.2.1 ++ '-' :: pad2 c.2.2

/-- Characters of the `HH:MM:SS.mmmZ` clock rendering of a millisecond
offset into a day, as produced by the time part of `toISOString`. -/
def isoClockChars (rest : Int) : List Char :=
  let h := rest.fdiv 3600000
  let mi := (rest - h * 3600000).fdiv 60000
  let s := (rest - h * 3600000 - mi * 60000).fdiv 1000
  let mil := rest - h * 3600000 - mi * 60000 - s * 1000
  pad2 h ++ ':' :: pad2 mi ++ ':' :: pad2 s ++ '.' :: pad3 mil ++ ['Z']

/-- Characters of the full `YYYY-MM-DDTHH:MM:SS.mmmZ` rendering of an instant
(milliseconds since the epoch), as produced by `toISOString`. -/
def toISOStringChars (ms : Int) : List Char :=
  isoDateChars (ms.fdiv 86400000) ++
    'T' :: isoClockChars (ms - ms.fdiv 86400000 * 86400000)

/-- Model of `new Date(iso).toISOString()` for the instant `ms`. -/
def toISOString (ms : Int) : String := String.mk (toISOStringChars ms)

/-- The `YYYY-MM-DD` string of the UTC calendar date an instant falls on. -/
def utcDateString (ms : Int) : String :=
  String.mk (isoDateChars (ms.fdiv 86400000))

/-- The `YYYY-MM-DD` string of the LOCAL calendar date an instant falls on,
for a consumer whose local offset is `off` minutes east of UTC. -/
def localDateString (ms off : Int) : String :=
  String.mk (isoDateChars ((ms + off * 60000).fdiv 86400000))

/-- Model of JavaScript `s.split('T')[0]`: the prefix of `s` before the
first `'T'` (the whole string when `'T'` does not occur). -/
def splitBeforeT (s : String) : String :=
  String.mk (s.toList.takeWhile (fun c => decide (c ≠ 'T')))

/-- `formatDateISO` from `src/utils/format.ts`:
`new Date(isoString).toISOString().split('T')[0]`, on the instant the
argument string denotes. -/
def formatDateISO (ms : Int) : String := splitBeforeT (toISOString ms)

/-- `getDateGroupKey` from `src/utils/format.ts`: delegates to
`formatDateISO`. -/
def getDateGroupKey (ms : Int) : String := formatDateISO ms

/-- `calculateDuration` from `src/utils/format.ts`:
`Math.floor((end - start) / 1000)` where `end` is the parsed `endedAt` or
`Date.now()`.  Times are milliseconds since the epoch; `now` is the value
of `Date.now()` at the call. -/
def calculateDuration (startedAt : Int) (endedAt : Option Int) (now : Int) : Int :=
  let e := endedAt.getD now
  (e - startedAt).fdiv 1000

/-! ## Data model (`src/types/index.ts`)

JavaScript strings are Lean `String`s; optional/nullable fields are
`Option`; the open key-value `metadata` bag is modelled as a string
association list. -/

structure Task where
  id : String
  folder_id : Option String
  name : String
  description : Option String
  color : String
  archived : Bool
  created_at : String
  updated_at : String
deriving DecidableEq, Repr

structure Artifact where
  id : String
  name : String
  artifact_type : String
  reference : Option String
  metadata : Option (List (String × String))
  created_at : String
deriving DecidableEq, Repr

structure TimeEntry where
  id : String
  task_id : Option String
  started_at : String
  ended_at : Option String
  memo : Option String
  created_at : String
  updated_at : String
deriving DecidableEq, Repr

structure TimeEntryWithRelations extends TimeEntry where
  task : Option Task
  artifacts : List Artifact
  duration_seconds : Option Int
deriving DecidableEq, Repr

structure CreateTask where
  name : String
  description : Option String
  color : Option String
  folder_id : Option String
deriving DecidableEq, Repr

structure UpdateTask where
  name : Option String
  description : Option String
  color : Option String
  folder_id : Option (Option String)
deriving DecidableEq, Repr

structure ExportTimeEntry where
  id : String
  task_id : Option String
  started_at : String
  ended_at : Option String
  duration_seconds : Option Int
  memo : Option String
  created_at : String
  updated_at : String
deriving DecidableEq, Repr

structure EntryArtifact where
  entry_id : String
  artifact_id : String
deriving DecidableEq, Repr

structure ImportResult where
  tasks_imported : Nat
  entries_imported : Nat
  artifacts_imported : Nat
deriving DecidableEq, Repr

/-- An import bundle as parsed from JSON by `handleImportJson`, before
shape validation: every field of `ExportData` may be absent. -/
structure RawBundle where
  version : Option String
  exported_at : Option String
  tasks : Option (List Task)
  artifacts : Option (List Artifact)
  time_entries : Option (List ExportTimeEntry)
  entry_artifacts : Option (List EntryArtifact)
deriving DecidableEq, Repr

structure AppState where
  tasks : List Task
  entries : List TimeEntryWithRelations
  runningEntry : Option TimeEntryWithRelations
  artifacts : List Artifact
  isLoading : Bool
  error : Option String
deriving DecidableEq, Repr

/-! ## Client synchronization store (`src/store/index.ts`)

The `Store` class holds an `AppState`, a `Set` of listener callbacks and
a timer-interval handle.  Listener callbacks are modelled by numeric
identifiers kept in insertion order (`Set` iteration order); the interval
handle `timerInterval : number | null` is modelled by the Boolean
`timerActive`.  Asynchronous methods are modelled as pure state
transformers against an `Api` of backend responses, returning the list of
backend commands invoked (models of the `invoke` calls of
`src/api/index.ts`), so that re-fetching behaviour is observable. -/

structure Store where
  state : AppState
  listeners : List Nat
  timerActive : Bool
deriving DecidableEq, Repr

/-- The backend commands the store can invoke (`src/api/index.ts`). -/
inductive ApiCall where
  | listTasks
  | createTask
  | updateTask
  | archiveTask
  | listEntries
  | getRunning
  | startEntry
  | stopEntry (id : String)
  | updateEntry
  | deleteEntry
  | listArtifacts
  | linkArtifact
  | unlinkArtifact
  | exportData
  | importData
deriving DecidableEq, Repr

/-- Backend responses: the value each command resolves with during the
execution being modelled. `importData` may reject (a thrown error). -/
structure Api where
  listTasks : List Task
  listEntries : List TimeEntryWithRelations
  getRunning : Option TimeEntryWithRelations
  createTask : CreateTask → Task
  updateTask : String → UpdateTask → Task
  importData : RawBundle → Bool → Except String ImportResult

/-- `Set.prototype.add` on an insertion-ordered set of listeners: a
listener already present is not added again. -/
def addListener (ls : List Nat) (l : Nat) : List Nat :=
  if l ∈ ls then ls else ls ++ [l]

/-- `subscribe`: `this.listeners.add(listener)`. -/
def subscribe (s : Store) (l : Nat) : Store :=
  { s with listeners := addListener s.listeners l }

/-- The unsubscribe closure returned by `subscribe`:
`() => this.listeners.delete(listener)`. -/
def unsubscribe (s : Store) (l : Nat) : Store :=
  { s with listeners := s.listeners.erase l }

/-- `setState`: replaces the state and synchronously notifies every
subscribed listener; the second component is the list of listeners
invoked by `notify`, in iteration order. -/
def setState (s : Store) (st : AppState) : Store × List Nat :=
  ({ s with state := st }, s.listeners)

/-- `loadTasks`: fetch the task list and replace the projection. -/
def loadTasks (api : Api) (s : Store) : Store × List ApiCall :=
  ((setState s { s.state with tasks := api.listTasks }).1, [ApiCall.listTasks])

/-- `createTask`: invoke the backend, then append the returned task to
the in-memory list (no re-fetch of the task collection). -/
def createTask (api : Api) (s : Store) (t : CreateTask) : Store × List ApiCall :=
  let newTask := api.createTask t
  ((setState s { s.state with tasks := s.state.tasks ++ [newTask] }).1,
   [ApiCall.createTask])

/-- `updateTask`: invoke the backend, then map the returned task over the
in-memory list (no re-fetch of the task collection). -/
def updateTask (api : Api) (s : Store) (id : String) (u : UpdateTask) :
    Store × List ApiCall :=
  let updatedTask := api.updateTask id u
  ((setState s { s.state with
      tasks := s.state.tasks.map (fun t => if t.id = id then updatedTask else t) }).1,
   [ApiCall.updateTask])

/-- `archiveTask`: invoke the backend, then patch the `archived` flag on
the in-memory list (no re-fetch of the task collection). -/
def archiveTask (_api : Api) (s : Store) (id : String) (archived : Bool) :
    Store × List ApiCall :=
  ((setState s { s.state with
      tasks := s.state.tasks.map (fun t =>
        if t.id = id then { t with archived := archived } else t) }).1,
   [ApiCall.archiveTask])

/-- `startEntry`: invoke the backend `start_entry`, then re-fetch the
running entry and the entry list. -/
def startEntry (api : Api) (s : Store) : Store × List ApiCall :=
  let s1 := (setState s { s.state with runningEntry := api.getRunning }).1
  let s2 := (setState s1 { s1.state with entries := api.listEntries }).1
  (s2, [ApiCall.startEntry, ApiCall.getRunning, ApiCall.listEntries])

/-- `stopEntry`: `if (!runningEntry) return;` — when no running entry is
cached the method returns at once, invoking nothing and surfacing no
failure; otherwise it stops the running entry, locally clears the
running-entry pointer and re-fetches the entry list. -/
def stopEntry (api : Api) (s : Store) (_memo : Option String) : Store × List ApiCall :=
  match s.state.runningEntry with
  | none => (s, [])
  | some r =>
    let s1 := (setState s { s.state with runningEntry := none }).1
    let s2 := (setState s1 { s1.state with entries := api.listEntries }).1
    (s2, [ApiCall.stopEntry r.id, ApiCall.listEntries])

/-- `linkArtifact`: invoke the backend, then re-fetch the entry list. -/
def linkArtifact (api : Api) (s : Store) : Store × List ApiCall :=
  ((setState s { s.state with entries := api.listEntries }).1,
   [ApiCall.linkArtifact, ApiCall.listEntries])

/-- `initialize`: set the loading flag, load tasks, entries and the
running entry, start the timer interval, clear the loading flag. -/
def initializeStore (api : Api) (s : Store) : Store × List ApiCall :=
  let s0 := (setState s { s.state with isLoading := true }).1
  let s1 := (setState s0 { s0.state with tasks := api.listTasks }).1
  let s2 := (setState s1 { s1.state with entries := api.listEntries }).1
  let s3 := (setState s2 { s2.state with runningEntry := api.getRunning }).1
  let s4 := { s3 with timerActive := true }
  let s5 := (setState s4 { s4.state with isLoading := false }).1
  (s5, [ApiCall.listTasks, ApiCall.listEntries, ApiCall.getRunning])

/-- `importData`: invoke the backend import; on success run
`initialize` (full reload); a backend rejection propagates and the
reload is not performed. -/
def importData (api : Api) (s : Store) (d : RawBundle) (merge : Bool) :
    Store × List ApiCall × Except String ImportResult :=
  match api.importData d merge with
  | Except.error e => (s, [ApiCall.importData], Except.error e)
  | Except.ok r =>
    let p := initializeStore api s
    (p.1, ApiCall.importData :: p.2, Except.ok r)

/-- The failures `ExportImport.handleImportJson` can surface: the
malformed-bundle validation error thrown before any mutation, or a
backend rejection. -/
inductive ImportFailure where
  | malformedBundle
  | backend (msg : String)
deriving DecidableEq, Repr

/-- JavaScript truthiness of an optional string field
(`undefined`/`null`/`""` are falsy). -/
def truthyString : Option String → Bool
  | none => false
  | some s => !(s == "")

/-- The validation of `handleImportJson`:
`!data.version || !data.tasks || !data.time_entries` throws. An array
field present is always truthy (even when empty). -/
def validBundle (d : RawBundle) : Bool :=
  truthyString d.version && d.tasks.isSome && d.time_entries.isSome

/-- `ExportImport.handleImportJson` (`src/components/Report.ts`) from the
point the file is parsed: validate the bundle shape, then hand the bundle
to `store.importData`; an invalid shape fails before the import is
invoked. -/
def handleImportJson (api : Api) (s : Store) (d : RawBundle) (merge : Bool) :
    Store × List ApiCall × Except ImportFailure ImportResult :=
  if validBundle d then
    match importData api s d merge with
    | (s', calls, Except.ok r) => (s', calls, Except.ok r)
    | (s', calls, Except.error e) => (s', calls, Except.error (ImportFailure.backend e))
  else (s, [], Except.error ImportFailure.malformedBundle)

/-- One firing of the interval callback installed by `startTimerUpdate`:
it runs only while the interval is installed, and
`if (this.state.runningEntry) this.notify();` — no backend call, no
state change.  Components: (store afterwards, listeners notified,
backend commands invoked). -/
def tick (s : Store) : Store × List Nat × List ApiCall :=
  if s.timerActive then
    if s.state.runningEntry.isSome then (s, s.listeners, []) else (s, [], [])
  else (s, [], [])

/-- `destroy`: clear the interval and the listener set. -/
def destroy (s : Store) : Store :=
  { s with timerActive := false, listeners := [] }

/-! ## Timeline grouping (`getEntriesGroupedByDate`) -/

/-- The grouping key `entry.started_at.split('T')[0]`. -/
def startedAtDateKey (s : String) : String := splitBeforeT s

/-- `Map.prototype.get` on an insertion-ordered map. -/
def mGet {α : Type} : List (String × α) → String → Option α
  | [], _ => none
  | (k, v) :: rest, key => if k = key then some v else mGet rest key

/-- `Map.prototype.set` on an insertion-ordered map: an existing key is
updated in place, a new key is appended. -/
def mSet {α : Type} : List (String × α) → String → α → List (String × α)
  | [], key, v => [(key, v)]
  | (k, w) :: rest, key, v =>
    if k = key then (k, v) :: rest else (k, w) :: mSet rest key v

/-- The loop body of `getEntriesGroupedByDate`:
`groups.set(dateKey, [...(groups.get(dateKey) || []), entry])`. -/
def groupStep (groups : List (String × List TimeEntryWithRelations))
    (e : TimeEntryWithRelations) : List (String × List TimeEntryWithRelations) :=
  mSet groups (startedAtDateKey e.started_at)
    ((mGet groups (startedAtDateKey e.started_at)).getD [] ++ [e])

/-- `getEntriesGroupedByDate`: fold the entry list into an
insertion-ordered map from date key to the entries carrying it. -/
def getEntriesGroupedByDate (entries : List TimeEntryWithRelations) :
    List (String × List TimeEntryWithRelations) :=
  entries.foldl groupStep []

/-! ## Backend entry lifecycle (modelled from the spec) -/

/-- The typed failures of the backend `stop_entry` command (§7 of the
spec). -/
inductive StopError where
  | notFound
  | alreadyClosed
deriving DecidableEq, Repr

/-- Modelled from the spec: the backend `stop_entry` command.  Its Rust
source (`src-tauri/src/commands`) is not in the repository snapshot —
only the SQL migrations and the TypeScript callers are.  Per §4.2,
`stop(entryId, memo?)` fails with `NotFoundError` if `entryId` does not
name the current running entry, with `AlreadyClosedError` if the entry it
names is already closed, and otherwise sets `ended_at = now`, optionally
overwriting the memo. -/
def backendStopEntry (ledger : List TimeEntry) (id : String) (memo : Option String)
    (now : String) : Except StopError TimeEntry :=
  match ledger.find? (fun e => e.id == id) with
  | none => Except.error StopError.notFound
  | some e =>
    if e.ended_at.isSome then Except.error StopError.alreadyClosed
    else Except.ok { e with
      ended_at := some now
      memo := match memo with | some m => some m | none => e.memo
      updated_at := now }

/-! ## Concrete sample values (used by witnesses and counterexamples) -/

def sampleTask : Task :=
  { id := "t1", folder_id := none, name := "Task 1", description := none,
    color := "#3b82f6", archived := false,
    created_at := "2024-01-01T00:00:00.000Z",
    updated_at := "2024-01-01T00:00:00.000Z" }

def sampleOpenEntry : TimeEntryWithRelations :=
  { id := "e1", task_id := some "t1",
    started_at := "2024-01-01T09:00:00.000Z", ended_at := none,
    memo := none,
    created_at := "2024-01-01T09:00:00.000Z",
    updated_at := "2024-01-01T09:00:00.000Z",
    task := some sampleTask, artifacts := [], duration_seconds := none }

def sampleClosedEntry : TimeEntry :=
  { id := "e9", task_id := none,
    started_at := "2024-01-01T09:00:00.000Z",
    ended_at := some "2024-01-01T10:00:00.000Z",
    memo := none,
    created_at := "2024-01-01T09:00:00.000Z",
    updated_at := "2024-01-01T10:00:00.000Z" }

def sampleCreateInput : CreateTask :=
  { name := "New task", description := none, color := none, folder_id := none }

def sampleImportResult : ImportResult :=
  { tasks_imported := 3, entries_imported := 5, artifacts_imported := 0 }

def sampleApi : Api :=
  { listTasks := [sampleTask]
    listEntries := [sampleOpenEntry]
    getRunning := some sampleOpenEntry
    createTask := fun c => { sampleTask with id := "t2", name := c.name }
    updateTask := fun _ _ => sampleTask
    importData := fun _ _ => Except.ok sampleImportResult }

/-- The initial state of the `Store` class. -/
def initialState : AppState :=
  { tasks := [], entries := [], runningEntry := none, artifacts := [],
    isLoading := false, error := none }

def initialStore : Store :=
  { state := initialState, listeners := [], timerActive := false }

def sampleEntryDay2 : TimeEntryWithRelations :=
  { id := "e2", task_id := none,
    started_at := "2024-01-02T10:00:00.000Z",
    ended_at := some "2024-01-02T11:00:00.000Z",
    memo := some "done",
    created_at := "2024-01-02T10:00:00.000Z",
    updated_at := "2024-01-02T11:00:00.000Z",
    task := none, artifacts := [], duration_seconds := some 3600 }

def sampleEntries : List TimeEntryWithRelations :=
  [sampleOpenEntry, sampleEntryDay2]

/-- A parsed bundle missing every required field. -/
def emptyBundle : RawBundle :=
  { version := none, exported_at := none, tasks := none, artifacts := none,
    time_entries := none, entry_artifacts := none }

/-! ## Characters produced by the date rendering -/

theorem digitChar_ne_T : ∀ n < 10, digitChar n ≠ 'T' := by decide

theorem digitChar_mod_ne_T (n : Nat) : digitChar (n % 10) ≠ 'T' :=
  digitChar_ne_T (n % 10) (Nat.mod_lt _ (by omega))

theorem pad2_ne_T (n : Int) : ∀ c ∈ pad2 n, c ≠ 'T' := by
  intro c hc
  unfold pad2 at hc
  rcases List.mem_cons.mp hc with h | h
  · subst h; exact digitChar_mod_ne_T _
  · rw [List.mem_singleton] at h
    subst h; exact digitChar_mod_ne_T _

theorem pad4_ne_T (n : Int) : ∀ c ∈ pad4 n, c ≠ 'T' := by
  intro c hc
  unfold pad4 at hc
  rcases List.mem_cons.mp hc with h | h
  · subst h; exact digitChar_mod_ne_T _
  · rcases List.mem_cons.mp h with h | h
    · subst h; exact digitChar_mod_ne_T _
    · rcases List.mem_cons.mp h with h | h
      · subst h; exact digitChar_mod_ne_T _
      · rw [List.mem_singleton] at h
        subst h; exact digitChar_mod_ne_T _

theorem isoDateChars_ne_T (day : Int) : ∀ c ∈ isoDateChars day, c ≠ 'T' := by
  intro c hc
  unfold isoDateChars at hc
  rcases List.mem_append.mp hc with h | h
  · rcases List.mem_append.mp h with h | h
    · exact pad4_ne_T _ c h
    · rcases List.mem_cons.mp h with h | h
      · subst h; decide
      · exact pad2_ne_T _ c h
  · rcases List.mem_cons.mp h with h | h
    · subst h; decide
    · exact pad2_ne_T _ c h

theorem takeWhile_until_T (a b : List Char) (h : ∀ c ∈ a, c ≠ 'T') :
    (a ++ 'T' :: b).takeWhile (fun c => decide (c ≠ 'T')) = a := by
  induction a with
  | nil => simp [List.takeWhile]
  | cons x xs ih =>
    have hx : x ≠ 'T' := h x (List.mem_cons_self x xs)
    have ih' := ih (fun c hc => h c (List.mem_cons_of_mem x hc))
    rw [List.cons_append, List.takeWhile_cons, decide_eq_true hx, if_pos rfl, ih']

theorem toList_mk (l : List Char) : (String.mk l).toList = l := rfl

theorem formatDateISO_eq_utcDateString (ms : Int) :
    formatDateISO ms = utcDateString ms := by
  unfold formatDateISO splitBeforeT toISOString toISOStringChars utcDateString
  rw [toList_mk, takeWhile_until_T _ _ (isoDateChars_ne_T _)]

/-! ## Claim theorems: duration & calendar utility -/

/-- C1 (counterexample): the instant 2024-01-01T20:00:00Z, viewed at local
offset +540 minutes (UTC+9), falls on local calendar date 2024-01-02,
which differs from its UTC date 2024-01-01; yet the date group key
computed by `getDateGroupKey`/`formatDateISO` is NOT that local date,
contradicting the claim that the key is the local calendar date. -/
theorem dateGroupKey_local_counterexample :
    localDateString 1704139200000 540 ≠ utcDateString 1704139200000 ∧
    getDateGroupKey 1704139200000 ≠ localDateString 1704139200000 540 := by
  constructor
  · decide
  · decide

/-- C1 (amended): the date group key computed by
`getDateGroupKey`/`formatDateISO` is the UTC calendar date (the date part
of `toISOString`), not the local calendar date; whenever the local date of
an instant differs from its UTC date, the key differs from the local
date. -/
theorem dateGroupKey_is_utc (ms off : Int) :
    getDateGroupKey ms = utcDateString ms ∧
    startedAtDateKey (toISOString ms) = utcDateString ms ∧
    (localDateString ms off ≠ utcDateString ms →
      getDateGroupKey ms ≠ localDateString ms off) := by
  have h : getDateGroupKey ms = utcDateString ms := formatDateISO_eq_utcDateString ms
  refine ⟨h, formatDateISO_eq_utcDateString ms, fun hne heq => hne ?_⟩
  rw [← heq, h]

/-- C1 witness: the amended theorem instantiated at 2024-01-01T20:00:00Z
and local offset UTC+9. -/
theorem dateGroupKey_is_utc_witness :
    getDateGroupKey 1704139200000 = utcDateString 1704139200000 ∧
    getDateGroupKey 1704139200000 ≠ localDateString 1704139200000 540 :=
  ⟨(dateGroupKey_is_utc 1704139200000 540).1,
   (dateGroupKey_is_utc 1704139200000 540).2.2 (by decide)⟩

/-- C2 (counterexample): with `startedAt` = 2000 ms, `endedAt` = 500 ms
(end precedes start), `calculateDuration` returns −2: a negative value,
not the claimed clamp to 0. -/
theorem calculateDuration_negative_counterexample :
    calculateDuration 2000 (some 500) 0 = -2 ∧
    calculateDuration 2000 (some 500) 0 < 0 := by
  constructor
  · decide
  · decide

/-- C2 (amended): `calculateDuration` returns the floor of
(end − start)/1000 seconds, where end is `endedAt` when present and the
current time otherwise; when end precedes start the result is negative
(the floor of the negative difference), not clamped to 0. -/
theorem calculateDuration_floor (startedAt : Int) (endedAt : Option Int) (now : Int) :
    1000 * calculateDuration startedAt endedAt now ≤ endedAt.getD now - startedAt ∧
    endedAt.getD now - startedAt < 1000 * (calculateDuration startedAt endedAt now + 1) ∧
    (endedAt.getD now < startedAt → calculateDuration startedAt endedAt now < 0) := by
  have hq : calculateDuration startedAt endedAt now =
      (endedAt.getD now - startedAt) / 1000 := by
    unfold calculateDuration
    exact Int.fdiv_eq_ediv _ (by omega)
  have hmod := Int.ediv_add_emod (endedAt.getD now - startedAt) 1000
  have hnn := Int.emod_nonneg (endedAt.getD now - startedAt)
    (by omega : (1000 : Int) ≠ 0)
  have hlt := Int.emod_lt_of_pos (endedAt.getD now - startedAt)
    (by omega : (0 : Int) < 1000)
  rw [hq]
  omega

/-- C2 witness for the amended theorem: concrete floor bounds and
negativity at startedAt = 2000, endedAt = 500. -/
theorem calculateDuration_floor_witness :
    1000 * calculateDuration 2000 (some 500) 0 ≤ (some (500:Int)).getD 0 - 2000 ∧
    calculateDuration 2000 (some 500) 0 < 0 :=
  ⟨(calculateDuration_floor 2000 (some 500) 0).1,
   (calculateDuration_floor 2000 (some 500) 0).2.2 (by decide)⟩

/-- C7: `calculateDuration t (some t) now = 0` for every `t`, and for an
open entry (`endedAt = none`) the value is monotonically non-decreasing
as the current time advances. -/
theorem calculateDuration_zero_and_monotone :
    (∀ t now : Int, calculateDuration t (some t) now = 0) ∧
    (∀ s n₁ n₂ : Int, n₁ ≤ n₂ →
      calculateDuration s none n₁ ≤ calculateDuration s none n₂) := by
  constructor
  · intro t now
    unfold calculateDuration
    simp [Int.sub_self, Int.zero_fdiv]
  · intro s n₁ n₂ h
    unfold calculateDuration
    simp only [Option.getD_none]
    rw [Int.fdiv_eq_ediv _ (by omega), Int.fdiv_eq_ediv _ (by omega)]
    exact Int.ediv_le_ediv (by omega) (by omega)

/-- C7 witness: zero at `t = 3000` and monotonicity at
`now₁ = 7000 ≤ now₂ = 9000` for an entry started at 5000. -/
theorem calculateDuration_zero_and_monotone_witness :
    calculateDuration 3000 (some 3000) 0 = 0 ∧
    calculateDuration 5000 none 7000 ≤ calculateDuration 5000 none 9000 :=
  ⟨calculateDuration_zero_and_monotone.1 3000 0,
   calculateDuration_zero_and_monotone.2 5000 7000 9000 (by decide)⟩

/-! ## Claim theorems: store and import behaviour -/

/-- C3 (counterexample): on a store whose state has no running entry, the
store's `stopEntry` returns the store unchanged, invokes no backend
command and surfaces no failure of any kind — it silently does nothing,
contradicting the claim that it surfaces a typed failure. -/
theorem stopEntry_silent_noop_counterexample :
    stopEntry sampleApi initialStore none = (initialStore, []) := rfl

/-- C3 (amended): the backend `stop` (modelled from the spec) fails with
`NotFoundError` when the id names no entry and with `AlreadyClosedError`
when it names a closed entry; but the store's `stopEntry`, when no
running entry is cached, returns without invoking the backend and
surfaces no failure (a silent no-op, not a typed failure). -/
theorem stopEntry_amended (api : Api) (s : Store) (memo : Option String)
    (ledger : List TimeEntry) (id : String) (m : Option String) (now : String) :
    (s.state.runningEntry = none → stopEntry api s memo = (s, [])) ∧
    ((∀ e ∈ ledger, e.id ≠ id) →
      backendStopEntry ledger id m now = Except.error StopError.notFound) ∧
    (∀ e, ledger.find? (fun x => x.id == id) = some e → e.ended_at.isSome →
      backendStopEntry ledger id m now = Except.error StopError.alreadyClosed) := by
  refine ⟨fun h => ?_, fun h => ?_, fun e hf hc => ?_⟩
  · unfold stopEntry
    rw [h]
  · unfold backendStopEntry
    have : ledger.find? (fun x => x.id == id) = none := by
      rw [List.find?_eq_none]
      intro x hx
      simpa using h x hx
    rw [this]
  · unfold backendStopEntry
    rw [hf]
    simp [hc]

/-- C3 witness: the amended theorem at a store with no running entry, an
empty ledger and a ledger holding one closed entry. -/
theorem stopEntry_amended_witness :
    stopEntry sampleApi initialStore none = (initialStore, []) ∧
    backendStopEntry [] "e1" none "2024-01-02T00:00:00.000Z"
      = Except.error StopError.notFound ∧
    backendStopEntry [sampleClosedEntry] "e9" none "2024-01-02T00:00:00.000Z"
      = Except.error StopError.alreadyClosed :=
  ⟨(stopEntry_amended sampleApi initialStore none [] "e1" none
      "2024-01-02T00:00:00.000Z").1 rfl,
   (stopEntry_amended sampleApi initialStore none [] "e1" none
      "2024-01-02T00:00:00.000Z").2.1 (by intro e he; cases he),
   (stopEntry_amended sampleApi initialStore none [sampleClosedEntry] "e9" none
      "2024-01-02T00:00:00.000Z").2.2 sampleClosedEntry (by decide) (by decide)⟩

/-- C4 (counterexample): `createTask` — a mutating store operation — is
not followed by a re-fetch of the task collection: its only backend
command is `create_task`, and the resulting task list is the previous
in-memory list locally patched with the returned task (and differs from
what a re-fetch would have returned). -/
theorem createTask_local_patch_counterexample :
    (createTask sampleApi initialStore sampleCreateInput).2 = [ApiCall.createTask] ∧
    ApiCall.listTasks ∉ (createTask sampleApi initialStore sampleCreateInput).2 ∧
    (createTask sampleApi initialStore sampleCreateInput).1.state.tasks
      = initialStore.state.tasks ++ [sampleApi.createTask sampleCreateInput] ∧
    (createTask sampleApi initialStore sampleCreateInput).1.state.tasks
      ≠ sampleApi.listTasks := by
  refine ⟨rfl, by decide, rfl, by decide⟩

/-- C4 (amended): entry-collection mutations (`startEntry`,
`linkArtifact`) are followed by an explicit re-fetch of the affected
collections, whose results replace the projection; but the task mutations
`createTask`, `updateTask` and `archiveTask` perform no re-fetch and
produce the new task list by locally patching the previous in-memory
list. -/
theorem mutations_refetch_amended (api : Api) (s : Store) (t : CreateTask)
    (id : String) (u : UpdateTask) (archived : Bool) :
    ((createTask api s t).2 = [ApiCall.createTask] ∧
     (createTask api s t).1.state.tasks = s.state.tasks ++ [api.createTask t]) ∧
    ((updateTask api s id u).2 = [ApiCall.updateTask] ∧
     (updateTask api s id u).1.state.tasks
       = s.state.tasks.map (fun x => if x.id = id then api.updateTask id u else x)) ∧
    ((archiveTask api s id archived).2 = [ApiCall.archiveTask] ∧
     (archiveTask api s id archived).1.state.tasks
       = s.state.tasks.map (fun x =>
           if x.id = id then { x with archived := archived } else x)) ∧
    ((startEntry api s).2 = [ApiCall.startEntry, ApiCall.getRunning, ApiCall.listEntries] ∧
     (startEntry api s).1.state.entries = api.listEntries ∧
     (startEntry api s).1.state.runningEntry = api.getRunning) ∧
    ((linkArtifact api s).2 = [ApiCall.linkArtifact, ApiCall.listEntries] ∧
     (linkArtifact api s).1.state.entries = api.listEntries) :=
  ⟨⟨rfl, rfl⟩, ⟨rfl, rfl⟩, ⟨rfl, rfl⟩, ⟨rfl, rfl, rfl⟩, ⟨rfl, rfl⟩⟩

/-- C5: an import bundle missing `version`, `tasks` or `time_entries`
fails the shape validation of `handleImportJson`: the result is the
typed malformed-bundle failure, no backend command is invoked (in
particular the import operation never runs) and the store is unchanged. -/
theorem import_validates_before_mutation (api : Api) (s : Store) (d : RawBundle)
    (merge : Bool)
    (h : d.version = none ∨ d.tasks = none ∨ d.time_entries = none) :
    handleImportJson api s d merge = (s, [], Except.error ImportFailure.malformedBundle) := by
  have hv : validBundle d = false := by
    unfold validBundle truthyString
    rcases h with h | h | h <;> simp [h]
  unfold handleImportJson
  simp [hv]

/-- C5 witness: the bundle with every field absent is rejected with no
mutation. -/
theorem import_validates_before_mutation_witness :
    emptyBundle.version = none ∧
    handleImportJson sampleApi initialStore emptyBundle true
      = (initialStore, [], Except.error ImportFailure.malformedBundle) :=
  ⟨rfl, import_validates_before_mutation sampleApi initialStore emptyBundle true
    (Or.inl rfl)⟩

/-- C6: when the backend import resolves successfully, `importData`
triggers a full reload: it re-fetches tasks, the entry list and the
running entry, and the resulting projection is exactly what those
re-fetches returned (not a patch of the previous projection). -/
theorem importData_full_reload (api : Api) (s : Store) (d : RawBundle) (merge : Bool)
    (r : ImportResult) (h : api.importData d merge = Except.ok r) :
    (importData api s d merge).2.2 = Except.ok r ∧
    (importData api s d merge).2.1
      = [ApiCall.importData, ApiCall.listTasks, ApiCall.listEntries, ApiCall.getRunning] ∧
    (importData api s d merge).1.state.tasks = api.listTasks ∧
    (importData api s d merge).1.state.entries = api.listEntries ∧
    (importData api s d merge).1.state.runningEntry = api.getRunning := by
  unfold importData
  rw [h]
  exact ⟨rfl, rfl, rfl, rfl, rfl⟩

/-- C6 witness: a successful import against the sample backend reloads
the whole projection. -/
theorem importData_full_reload_witness :
    (importData sampleApi initialStore emptyBundle false).2.2
      = Except.ok sampleImportResult ∧
    (importData sampleApi initialStore emptyBundle false).1.state.tasks
      = sampleApi.listTasks :=
  ⟨(importData_full_reload sampleApi initialStore emptyBundle false
      sampleImportResult rfl).1,
   (importData_full_reload sampleApi initialStore emptyBundle false
      sampleImportResult rfl).2.2.1⟩

/-- C8: one firing of the periodic tick changes no store state and
invokes no backend command; it notifies nobody when no running entry
exists; while the interval is installed and a running entry exists it
re-notifies exactly the subscribed listeners; and after `destroy` the
tick notifies nobody and can never notify again (the interval handle is
cleared and the listener set emptied). -/
theorem tick_pure_and_cancelled (s : Store) :
    (tick s).1 = s ∧
    (tick s).2.2 = [] ∧
    tick (destroy s) = (destroy s, [], []) ∧
    (s.state.runningEntry = none → (tick s).2.1 = []) ∧
    (s.timerActive = true → s.state.runningEntry.isSome = true →
      (tick s).2.1 = s.listeners) := by
  refine ⟨?_, ?_, rfl, fun h => ?_, fun ht hr => ?_⟩
  · unfold tick
    split
    · split <;> rfl
    · rfl
  · unfold tick
    split
    · split <;> rfl
    · rfl
  · unfold tick
    simp [h]
  · unfold tick
    simp [ht, hr]

/-- C8 witness: the tick on the destroyed sample store notifies nobody,
and on a live store with a running entry notifies the listener set. -/
theorem tick_pure_and_cancelled_witness :
    tick (destroy initialStore) = (destroy initialStore, [], []) ∧
    (tick { state := { initialState with runningEntry := some sampleOpenEntry },
            listeners := [7], timerActive := true }).2.1 = [7] :=
  ⟨(tick_pure_and_cancelled initialStore).2.2.1,
   (tick_pure_and_cancelled
      { state := { initialState with runningEntry := some sampleOpenEntry },
        listeners := [7], timerActive := true }).2.2.2.2 rfl rfl⟩

/-- C10: with a duplicate-free listener set, after `subscribe l` every
`setState` notifies `l` exactly once; after running the unsubscribe
closure, `setState` never notifies `l`; and subscribing the same
listener twice is the same as subscribing it once (the listener set is a
mathematical set, so no double notification). -/
theorem count_addListener (ls : List Nat) (l : Nat) (h : ls.Nodup) :
    (addListener ls l).count l = 1 := by
  unfold addListener
  by_cases hm : l ∈ ls
  · rw [if_pos hm]
    exact List.count_eq_one_of_mem h hm
  · rw [if_neg hm, List.count_append, List.count_eq_zero.mpr hm]
    simp

theorem addListener_idem (ls : List Nat) (l : Nat) :
    addListener (addListener ls l) l = addListener ls l := by
  unfold addListener
  by_cases hm : l ∈ ls
  · simp [hm]
  · rw [if_neg hm]
    have : l ∈ ls ++ [l] := List.mem_append_right _ (List.mem_singleton.mpr rfl)
    rw [if_pos this]

theorem subscribe_setState_unsubscribe (s : Store) (l : Nat) (st : AppState)
    (h : s.listeners.Nodup) :
    (setState (subscribe s l) st).2.count l = 1 ∧
    (setState (unsubscribe (subscribe s l) l) st).2.count l = 0 ∧
    subscribe (subscribe s l) l = subscribe s l := by
  refine ⟨count_addListener s.listeners l h, ?_, ?_⟩
  · show ((addListener s.listeners l).erase l).count l = 0
    rw [List.count_erase_self, count_addListener s.listeners l h]
  · show ({ s with listeners := addListener (addListener s.listeners l) l } : Store)
      = { s with listeners := addListener s.listeners l }
    rw [addListener_idem]

/-- C10 witness: the theorem at the pristine store (empty, duplicate-free
listener set) and listener 0. -/
theorem subscribe_setState_unsubscribe_witness :
    (setState (subscribe initialStore 0) initialState).2.count 0 = 1 ∧
    (setState (unsubscribe (subscribe initialStore 0) 0) initialState).2.count 0 = 0 ∧
    subscribe (subscribe initialStore 0) 0 = subscribe initialStore 0 :=
  subscribe_setState_unsubscribe initialStore 0 initialState List.nodup_nil

/-! ## Claim theorems: timeline grouping -/

theorem mGet_mSet {α : Type} (m : List (String × α)) (k k' : String) (v : α) :
    mGet (mSet m k v) k' = if k = k' then some v else mGet m k' := by
  induction m with
  | nil =>
    by_cases h : k = k' <;> simp [mSet, mGet, h]
  | cons hd tl ih =>
    obtain ⟨a, w⟩ := hd
    by_cases hak : a = k
    · subst hak
      rw [show mSet ((a, w) :: tl) a v = (a, v) :: tl from by simp [mSet]]
      by_cases h : a = k' <;> simp [mGet, h]
    · rw [show mSet ((a, w) :: tl) k v = (a, w) :: mSet tl k v from by simp [mSet, hak]]
      by_cases h : a = k'
      · have hkk : k ≠ k' := fun hkk => hak (h.trans hkk.symm)
        simp [mGet, h, hkk]
      · simp [mGet, h, ih]

theorem keys_mSet {α : Type} (m : List (String × α)) (k : String) (v : α) :
    (mSet m k v).map Prod.fst =
      if k ∈ m.map Prod.fst then m.map Prod.fst else m.map Prod.fst ++ [k] := by
  induction m with
  | nil => simp [mSet]
  | cons hd tl ih =>
    obtain ⟨a, w⟩ := hd
    by_cases hak : a = k
    · subst hak
      simp [mSet]
    · have : ¬ k = a := fun h => hak h.symm
      by_cases hk : k ∈ tl.map Prod.fst <;> simp [mSet, hak, this, hk, ih]

theorem nodup_keys_mSet {α : Type} (m : List (String × α)) (k : String) (v : α)
    (h : (m.map Prod.fst).Nodup) : ((mSet m k v).map Prod.fst).Nodup := by
  rw [keys_mSet]
  split
  · exact h
  · next hk =>
    rw [List.nodup_append]
    refine ⟨h, List.nodup_singleton _, ?_⟩
    intro a ha hb
    rw [List.mem_singleton] at hb
    subst hb
    exact hk ha

theorem mem_mSet {α : Type} {m : List (String × α)} {k : String} {v : α}
    {p : String × α} (hp : p ∈ mSet m k v) : p = (k, v) ∨ p ∈ m := by
  induction m with
  | nil => simpa [mSet] using hp
  | cons hd tl ih =>
    obtain ⟨a, w⟩ := hd
    by_cases hak : a = k
    · subst hak
      rw [show mSet ((a, w) :: tl) a v = (a, v) :: tl from by simp [mSet]] at hp
      rcases List.mem_cons.mp hp with h | h
      · exact Or.inl h
      · exact Or.inr (List.mem_cons_of_mem _ h)
    · rw [show mSet ((a, w) :: tl) k v = (a, w) :: mSet tl k v from by simp [mSet, hak]] at hp
      rcases List.mem_cons.mp hp with h | h
      · exact Or.inr (h ▸ List.mem_cons_self _ _)
      · rcases ih h with h' | h'
        · exact Or.inl h'
        · exact Or.inr (List.mem_cons_of_mem _ h')

theorem mGet_foldl_groupStep (l : List TimeEntryWithRelations)
    (m : List (String × List TimeEntryWithRelations)) (k : String) :
    mGet (l.foldl groupStep m) k =
      if l.filter (fun e => decide (startedAtDateKey e.started_at = k)) = []
      then mGet m k
      else some ((mGet m k).getD [] ++
        l.filter (fun e => decide (startedAtDateKey e.started_at = k))) := by
  induction l generalizing m with
  | nil => simp
  | cons e l ih =>
    rw [List.foldl_cons, ih]
    by_cases hk : startedAtDateKey e.started_at = k
    · have hstep : mGet (groupStep m e) k = some ((mGet m k).getD [] ++ [e]) := by
        unfold groupStep
        rw [mGet_mSet, if_pos hk, hk]
      rw [hstep, List.filter_cons_of_pos (by simp [hk])]
      by_cases hfl : l.filter (fun e => decide (startedAtDateKey e.started_at = k)) = []
      · simp [hfl]
      · simp [hfl, List.append_assoc]
    · have hstep : mGet (groupStep m e) k = mGet m k := by
        unfold groupStep
        rw [mGet_mSet, if_neg hk]
      rw [hstep, List.filter_cons_of_neg (by simp [hk])]

theorem nodup_keys_foldl_groupStep (l : List TimeEntryWithRelations)
    (m : List (String × List TimeEntryWithRelations))
    (h : (m.map Prod.fst).Nodup) : ((l.foldl groupStep m).map Prod.fst).Nodup := by
  induction l generalizing m with
  | nil => exact h
  | cons e l ih => exact ih _ (nodup_keys_mSet _ _ _ h)

theorem nonempty_values_foldl_groupStep (l : List TimeEntryWithRelations)
    (m : List (String × List TimeEntryWithRelations))
    (h : ∀ p ∈ m, p.2 ≠ []) : ∀ p ∈ l.foldl groupStep m, p.2 ≠ [] := by
  induction l generalizing m with
  | nil => exact h
  | cons e l ih =>
    refine ih _ ?_
    intro p hp
    rcases mem_mSet hp with h1 | h1
    · rw [h1]
      simp
    · exact h p h1

/-- C9: `getEntriesGroupedByDate` partitions the entry list: looking up
any key yields exactly the sub-list of entries whose
`started_at`-before-`'T'` prefix is that key, in their original relative
order (and `none` when no entry has the key); the keys of the produced
groups are pairwise distinct, so each entry lies in exactly one group
— the group of its own key; and no group is empty. -/
theorem getEntriesGroupedByDate_partition (entries : List TimeEntryWithRelations) :
    (∀ k, mGet (getEntriesGroupedByDate entries) k =
      (if entries.filter (fun e => decide (startedAtDateKey e.started_at = k)) = []
       then none
       else some (entries.filter (fun e => decide (startedAtDateKey e.started_at = k))))) ∧
    ((getEntriesGroupedByDate entries).map Prod.fst).Nodup ∧
    (∀ p ∈ getEntriesGroupedByDate entries, p.2 ≠ []) ∧
    (∀ e ∈ entries,
      mGet (getEntriesGroupedByDate entries) (startedAtDateKey e.started_at)
        = some (entries.filter (fun x =>
            decide (startedAtDateKey x.started_at = startedAtDateKey e.started_at)))) := by
  have h1 : ∀ k, mGet (getEntriesGroupedByDate entries) k =
      (if entries.filter (fun e => decide (startedAtDateKey e.started_at = k)) = []
       then none
       else some (entries.filter (fun e => decide (startedAtDateKey e.started_at = k)))) := by
    intro k
    unfold getEntriesGroupedByDate
    rw [mGet_foldl_groupStep]
    split
    · rfl
    · rfl
  refine ⟨h1, nodup_keys_foldl_groupStep entries [] (by simp),
    nonempty_values_foldl_groupStep entries [] (by simp), ?_⟩
  intro e he
  rw [h1]
  have hmem : e ∈ entries.filter (fun x =>
      decide (startedAtDateKey x.started_at = startedAtDateKey e.started_at)) :=
    List.mem_filter.mpr ⟨he, by simp⟩
  have hne : entries.filter (fun x =>
      decide (startedAtDateKey x.started_at = startedAtDateKey e.started_at)) ≠ [] := by
    intro hh
    rw [hh] at hmem
    cases hmem
  rw [if_neg hne]

/-- C9 witness: the partition property at a two-entry list spanning two
dates, applied to its first entry. -/
theorem getEntriesGroupedByDate_partition_witness :
    mGet (getEntriesGroupedByDate sampleEntries)
        (startedAtDateKey sampleOpenEntry.started_at)
      = some (sampleEntries.filter (fun x =>
          decide (startedAtDateKey x.started_at
            = startedAtDateKey sampleOpenEntry.started_at))) :=
  (getEntriesGroupedByDate_partition sampleEntries).2.2.2 sampleOpenEntry
    (List.mem_cons_self _ _)

end TimeTracker
